import Mathlib

/-!
Shallow embedding of the `deploy` trading repository:

* `bots/scripts/v2_with_controllers.py` — the portfolio risk & cash-out
  strategy (`GenericV2StrategyWithCashOut`);
* `bots/controllers/directional_trading/bollinger_dca.py`,
  `macd_mt_dca.py`, `bollinger_macd_dca.py` — the directional controllers
  (signal generation, DCA ladder building, executor refresh).

Python `Decimal`/float values are modelled as exact rationals `ℚ`; Python
dicts keyed by strings are modelled as association lists with
`defaultdict(Decimal)` lookup semantics (missing key reads as `0`).
Components owned by the external hummingbot platform (runnable status,
executor listing, application shutdown) are modelled from the spec where
noted.
-/

namespace Deploy

/-- Modelled from the spec: lifecycle status of a runnable (controller or
executor) as used by the strategy (`RunnableStatus` is imported from the
external platform; the spec describes running/terminated states read and
set through `status`, `stop()` and `start()`). -/
inductive RunnableStatus where
  | NOT_STARTED
  | RUNNING
  | SHUTTING_DOWN
  | TERMINATED
deriving DecidableEq

/-- Modelled from the spec: the orchestrator's executor record
`{id, active, trading, created_at, controller_id}` together with its
runnable status, as read by the strategy and the controllers. -/
structure ExecutorInfo where
  id : String
  controller_id : String
  status : RunnableStatus
  is_active : Bool
  is_trading : Bool
  timestamp : ℚ
deriving DecidableEq

/-- Structure `StopExecutorAction(executor_id=..., controller_id=...)` from
`hummingbot.strategy_v2.models.executor_actions`: a stop intent sent to the
external orchestrator. -/
structure StopExecutorAction where
  executor_id : String
  controller_id : String
deriving DecidableEq

/-- Modelled from the spec: the per-controller state the strategy reads —
identity, its trading pair, the manual kill-switch flag of its config, and
its runnable status (mutated only through `stop()` / `start()`, which set
`TERMINATED` / `RUNNING`). -/
structure Controller where
  id : String
  trading_pair : String
  manual_kill_switch : Bool
  status : RunnableStatus
deriving DecidableEq

/-- The mutable state of `GenericV2StrategyWithCashOut` relevant to the
risk and cash-out logic, together with the strategy-level config fields
`max_portfolio_loss` and `time_to_cash_out` (the latter already resolved
to the absolute `cash_out_time`). Portfolio dicts are association lists
read with `defaultdict` semantics. -/
structure StrategyState where
  controllers : List Controller
  executors : List ExecutorInfo
  initial_portfolio_value : List (String × ℚ)
  max_portfolio_value : List (String × ℚ)
  cashing_out : Bool
  cash_out_time : Option ℚ
  current_timestamp : ℚ
  max_portfolio_loss : ℚ
deriving DecidableEq

/-- A `defaultdict(Decimal)` read: a missing key reads as `0`. -/
def dictGet (d : List (String × ℚ)) (k : String) : ℚ :=
  match d.find? (fun p => p.1 == k) with
  | some p => p.2
  | none => 0

/-- Python dict assignment `d[k] = v`: overwrite the existing binding in
place, otherwise append the new binding (dicts preserve insertion order). -/
def dictSet (d : List (String × ℚ)) (k : String) (v : ℚ) : List (String × ℚ) :=
  if d.any (fun p => p.1 == k) then
    d.map (fun p => if p.1 == k then (k, v) else p)
  else
    d ++ [(k, v)]

/-- Python `str.split(sep)` with a one-character separator, written as
structural recursion over the character list (so that it evaluates inside
the kernel): splitting the empty string gives `[""]`, and each separator
occurrence starts a new group. -/
def splitOnChar (sep : Char) : List Char → List (List Char)
  | [] => [[]]
  | c :: rest =>
      match splitOnChar sep rest with
      | [] => [[c]]
      | g :: gs => if c == sep then [] :: g :: gs else (c :: g) :: gs

/-- Embeds `get_quote_asset`: `trading_pair.split('-')[-1]`. -/
def getQuoteAsset (trading_pair : String) : String :=
  String.mk ((splitOnChar '-' trading_pair.data).getLastD [])

/-- Embeds `_get_pnl_by_quote_asset`: accumulate each controller's
`global_pnl_quote` (the orchestrator performance report, passed here as
the function `report` from controller id to pnl) into a
`defaultdict(Decimal)` keyed by the controller's quote asset. -/
def getPnlByQuoteAsset (report : String → ℚ) (controllers : List Controller) :
    List (String × ℚ) :=
  controllers.foldl
    (fun pnl_dict c =>
      dictSet pnl_dict (getQuoteAsset c.trading_pair)
        (dictGet pnl_dict (getQuoteAsset c.trading_pair) + report c.id))
    []

/-- Embeds `_get_current_portfolio_value`: for each `(asset, value)` item of the
initial portfolio the code executes `current_port['asset'] = value +
pnl_dict[asset]` — note the string literal `'asset'`, exactly as in the
source. -/
def getCurrentPortfolioValue (report : String → ℚ) (s : StrategyState) :
    List (String × ℚ) :=
  let pnl_dict := getPnlByQuoteAsset report s.controllers
  s.initial_portfolio_value.foldl
    (fun current_port p => dictSet current_port "asset" (p.2 + dictGet pnl_dict p.1))
    []

/-- Embeds `update_max_portfolio_value`: on the first call (falsy, i.e. empty,
running max) adopt the current portfolio; afterwards raise each tracked
asset to the element-wise maximum with the current portfolio. -/
def updateMaxPortfolioValue (report : String → ℚ) (s : StrategyState) :
    StrategyState :=
  let current_portfolio := getCurrentPortfolioValue report s
  if s.max_portfolio_value.isEmpty then
    { s with max_portfolio_value := current_portfolio }
  else
    let raised :=
      s.max_portfolio_value.map
        (fun p => if p.2 < dictGet current_portfolio p.1
                  then (p.1, dictGet current_portfolio p.1) else p)
    { s with max_portfolio_value := raised }

/-- The stop action emitted by `stop_by_portfolio_loss`,
`check_manual_cash_out` and `check_executors_status`:
`StopExecutorAction(executor_id=executor.id, controller_id=executor.controller_id)`. -/
def mkStop (e : ExecutorInfo) : StopExecutorAction :=
  { executor_id := e.id, controller_id := e.controller_id }

/-- Modelled from the spec: `get_executors_by_controller` of the external
`StrategyV2Base` — `list_executors(controller_id)`, the live executors
owned by the given controller. -/
def executorsByController (executors : List ExecutorInfo) (controller_id : String) :
    List ExecutorInfo :=
  executors.filter (fun e => e.controller_id == controller_id)

/-- Embeds `stop_by_portfolio_loss`: stop every RUNNING controller and issue a
`StopExecutorAction` for each of its executors. -/
def stopByPortfolioLoss (s : StrategyState) : StrategyState × List StopExecutorAction :=
  let stopped :=
    s.controllers.map
      (fun c => if c.status == RunnableStatus.RUNNING
                then { c with status := RunnableStatus.TERMINATED } else c)
  let actions :=
    (s.controllers.filter (fun c => c.status == RunnableStatus.RUNNING)).flatMap
      (fun c => (executorsByController s.executors c.id).map mkStop)
  ({ s with controllers := stopped }, actions)

/-- Embeds `control_portfolio_loss`: update the running max, recompute the current
portfolio, and on the first asset whose drawdown
`max_portfolio_value[asset] - value` reaches `max_portfolio_loss` run
`stop_by_portfolio_loss` once (the Python loop breaks after it). -/
def controlPortfolioLoss (report : String → ℚ) (s : StrategyState) :
    StrategyState × List StopExecutorAction :=
  let s1 := updateMaxPortfolioValue report s
  let current_portfolio := getCurrentPortfolioValue report s1
  if current_portfolio.any
      (fun p => decide (s1.max_portfolio_loss ≤ dictGet s1.max_portfolio_value p.1 - p.2)) then
    stopByPortfolioLoss s1
  else
    (s1, [])

/-- Embeds `evaluate_cash_out_time`: if a (truthy) cash-out deadline has passed
and the strategy is not yet cashing out, stop every RUNNING controller and
enter the cashing-out state. -/
def evaluateCashOutTime (s : StrategyState) : StrategyState :=
  match s.cash_out_time with
  | some t =>
      if t != 0 && decide (t ≤ s.current_timestamp) && !s.cashing_out then
        let stopped :=
          s.controllers.map
            (fun c => if c.status == RunnableStatus.RUNNING
                      then { c with status := RunnableStatus.TERMINATED } else c)
        { s with controllers := stopped, cashing_out := true }
      else s
  | none => s

/-- One controller's step of `check_manual_cash_out`: the two sequential
`if`s of the loop body — stop (and collect executor stop actions) when the
kill switch is set on a RUNNING controller, then restart when the kill
switch is clear on a TERMINATED controller. -/
def manualCashOutStep (executors : List ExecutorInfo) (c : Controller) :
    Controller × List StopExecutorAction :=
  let r :=
    if c.manual_kill_switch && c.status == RunnableStatus.RUNNING then
      ({ c with status := RunnableStatus.TERMINATED },
       (executorsByController executors c.id).map mkStop)
    else (c, [])
  if !r.1.manual_kill_switch && r.1.status == RunnableStatus.TERMINATED then
    ({ r.1 with status := RunnableStatus.RUNNING }, r.2)
  else r

/-- Embeds `check_manual_cash_out`: apply `manualCashOutStep` to every controller,
collecting the stop actions in controller order. -/
def checkManualCashOut (s : StrategyState) : List Controller × List StopExecutorAction :=
  (s.controllers.map (fun c => (manualCashOutStep s.executors c).1),
   s.controllers.flatMap (fun c => (manualCashOutStep s.executors c).2))

/-- Embeds `check_executors_status`: if no executor is RUNNING request full
application shutdown (the `Bool` component, modelled from the spec:
`HummingbotApplication.main_application().stop()`); otherwise stop every
RUNNING executor that is not trading. -/
def checkExecutorsStatus (s : StrategyState) : List StopExecutorAction × Bool :=
  let active_executors := s.executors.filter (fun e => e.status == RunnableStatus.RUNNING)
  if active_executors.isEmpty then
    ([], true)
  else
    ((active_executors.filter (fun e => !e.is_trading)).map mkStop, false)

/-- Embeds `control_cash_out`: evaluate the scheduled cash-out deadline, then
either drain executors (when cashing out) or process the manual
kill switches. Returns the new state, the issued stop actions and the
shutdown-request flag. -/
def controlCashOut (s : StrategyState) : StrategyState × List StopExecutorAction × Bool :=
  let s1 := evaluateCashOutTime s
  if s1.cashing_out then
    let r := checkExecutorsStatus s1
    (s1, r.1, r.2)
  else
    let r := checkManualCashOut s1
    ({ s1 with controllers := r.1 }, r.2, false)

/-- Embeds `on_tick`: run the portfolio-loss control when `max_portfolio_loss` is
truthy (non-zero), then the cash-out control. -/
def onTick (report : String → ℚ) (s : StrategyState) :
    StrategyState × List StopExecutorAction × Bool :=
  let r1 := if s.max_portfolio_loss != 0 then controlPortfolioLoss report s else (s, [])
  let r2 := controlCashOut r1.1
  (r2.1, r1.2 ++ r2.2.1, r2.2.2)

/-! ## DCA ladder builder (`bollinger_dca.py` and the two MACD variants) -/

/-- The `TradeType` of `hummingbot.core.data_type.common`, restricted to the
sides the controllers use. -/
inductive TradeType where
  | BUY
  | SELL
deriving DecidableEq

/-- Modelled from the spec: the `LadderPlan` (`DCAExecutorConfig`) as far
as the core computes it — side, level prices and level quote amounts.  The
remaining fields (`connector_name`, `trading_pair`, `mode`, `timestamp`,
`time_limit`, `stop_loss`, `take_profit`, `trailing_stop`,
`activation_bounds`, `leverage`) are copied from the configuration
unchanged and are not modelled. -/
structure DCAExecutorConfig where
  side : TradeType
  prices : List ℚ
  amounts_quote : List ℚ
deriving DecidableEq

/-- Embeds the `BollingerDCAController.__init__` line
`self.dca_amounts_pct = [Decimal(amount) / sum(self.config.dca_amounts) for amount in self.config.dca_amounts]`. -/
def dcaAmountsPct (dca_amounts : List ℚ) : List ℚ :=
  dca_amounts.map (fun amount => amount / dca_amounts.sum)

/-- Embeds `get_executor_config` (identical in the three controllers): level
prices move away from the reference price by the configured spreads, level
base amounts split `amount` by the normalized weights, and the quote
amounts are level base amount times level price. -/
def getExecutorConfig (dca_spreads dca_amounts : List ℚ)
    (trade_type : TradeType) (price amount : ℚ) : DCAExecutorConfig :=
  let prices :=
    match trade_type with
    | TradeType.BUY => dca_spreads.map (fun spread => price * (1 - spread))
    | TradeType.SELL => dca_spreads.map (fun spread => price * (1 + spread))
  let amounts := (dcaAmountsPct dca_amounts).map (fun pct => amount * pct)
  let amounts_quote := (amounts.zip prices).map (fun p => p.1 * p.2)
  { side := trade_type, prices := prices, amounts_quote := amounts_quote }

/-! ## Bollinger signal (`bollinger_dca.py`, `update_processed_data`) -/

/-- The per-bar signal of `bollinger_dca.update_processed_data`: start at
`0`, assign `1` where `bbp < bb_long_threshold`, then assign `-1` where
`bbp > bb_short_threshold` (the second assignment overwrites the first). -/
def bbSignal (bb_long_threshold bb_short_threshold bbp : ℚ) : ℤ :=
  let signal0 : ℤ := 0
  let signal1 := if bbp < bb_long_threshold then 1 else signal0
  if bbp > bb_short_threshold then -1 else signal1

/-! ## Multi-indicator fusion (`bollinger_macd_dca.py`, `macd_mt_dca.py`) -/

/-- Embeds `pd.merge_asof(..., on='time', direction='backward')` applied to a
primary and a secondary `(timestamp, signal)` series (both sorted oldest
to newest, as the market-data contract guarantees): each primary row gets
the latest secondary signal at or before its timestamp attached, or
nothing when no secondary row is that old. -/
def asofBackward (primary secondary : List (ℤ × ℤ)) : List (ℤ × ℤ × Option ℤ) :=
  primary.map
    (fun p => (p.1, p.2, ((secondary.filter (fun q => q.1 ≤ p.1)).getLast?).map Prod.snd))

/-- The fused-signal lambda of `update_processed_data`:
`row['signal_1'] if row['signal_1'] == row['signal_2'] else 0`; a missing
attached value (pandas `NaN`) compares unequal to everything. -/
def fuseRow (signal1 : ℤ) (attached : Option ℤ) : ℤ :=
  match attached with
  | some signal2 => if signal1 = signal2 then signal1 else 0
  | none => 0

/-- The merged frame's final signal column: timestamp and fused signal per
primary row. -/
def mergedSignal (primary secondary : List (ℤ × ℤ)) : List (ℤ × ℤ) :=
  (asofBackward primary secondary).map (fun r => (r.1, fuseRow r.2.1 r.2.2))

/-! ## Candle look-back horizon (`get_candle_max_records`) -/

/-- The `interval_durations` dict of `get_candle_max_records`. -/
def intervalDurations : List (String × ℕ) :=
  [("1s", 1), ("1m", 60), ("3m", 3 * 60), ("5m", 5 * 60), ("15m", 15 * 60),
   ("30m", 30 * 60), ("1h", 60 * 60), ("4h", 4 * 60 * 60), ("1d", 24 * 60 * 60)]

/-- Dict lookup in `interval_durations`; an unknown interval string raises
`KeyError` in Python, modelled as `none`. -/
def intervalDuration (interval : String) : Option ℕ :=
  (intervalDurations.find? (fun p => p.1 == interval)).map (fun p => p.2)

/-- Embeds `get_candle_max_records` of `macd_mt_dca.py`: the common horizon is the
max of the two MACD requirements `duration * (slow + signal)`, and each
series' record count is the horizon floor-divided by its own interval
duration. -/
def getCandleMaxRecordsMacdMt (macd_interval_1 : String) (macd_slow_1 macd_signal_1 : ℕ)
    (macd_interval_2 : String) (macd_slow_2 macd_signal_2 : ℕ) : Option (List ℕ) :=
  match intervalDuration macd_interval_1, intervalDuration macd_interval_2 with
  | some d1, some d2 =>
      let total_macd_1_seconds := d1 * (macd_slow_1 + macd_signal_1)
      let total_macd_2_seconds := d2 * (macd_slow_2 + macd_signal_2)
      let max_seconds := max total_macd_1_seconds total_macd_2_seconds
      some [max_seconds / d1, max_seconds / d2]
  | _, _ => none

/-- Embeds `get_candle_max_records` of `bollinger_macd_dca.py`: the MACD series
requires `duration * (slow + signal)` seconds, the Bollinger series
`duration * bb_length` seconds; the horizon is their max, floor-divided by
each series' own interval duration. -/
def getCandleMaxRecordsBbMacd (macd_interval : String) (macd_slow macd_signal : ℕ)
    (bb_interval : String) (bb_length : ℕ) : Option (List ℕ) :=
  match intervalDuration macd_interval, intervalDuration bb_interval with
  | some d1, some d2 =>
      let total_macd_seconds := d1 * (macd_slow + macd_signal)
      let total_bb_seconds := d2 * bb_length
      let max_seconds := max total_macd_seconds total_bb_seconds
      some [max_seconds / d1, max_seconds / d2]
  | _, _ => none

/-! ## Executor refresh (`executors_to_refresh`, identical in the three
controllers) -/

/-- Embeds `order_level_refresh_condition`:
`market_data_provider.time() - executor.timestamp > executor_refresh_time * 1000`. -/
def orderLevelRefreshCondition (now executor_refresh_time : ℚ) (e : ExecutorInfo) : Bool :=
  decide (now - e.timestamp > executor_refresh_time * 1000)

/-- Embeds `executors_to_refresh`: filter the live executors that are not trading,
are active and satisfy the refresh condition, and emit
`StopExecutorAction(controller_id=self.config.id, executor_id=executor.id)`
for each. -/
def executorsToRefresh (config_id : String) (now executor_refresh_time : ℚ)
    (executors_info : List ExecutorInfo) : List StopExecutorAction :=
  let stale :=
    executors_info.filter
      (fun x => !x.is_trading && x.is_active && orderLevelRefreshCondition now executor_refresh_time x)
  stale.map (fun executor => { executor_id := executor.id, controller_id := config_id })

/-! ## Helper lemmas -/

/-- Summing a list divided elementwise by a constant divides the sum. -/
theorem sum_map_div (l : List ℚ) (S : ℚ) : (l.map (fun a => a / S)).sum = l.sum / S := by
  induction l with
  | nil => simp
  | cons a t ih => simp [ih, add_div]

/-- The normalized DCA weights sum to `1` whenever the raw amounts have a
non-zero sum. -/
theorem dcaAmountsPct_sum (amounts : List ℚ) (h : amounts.sum ≠ 0) :
    (dcaAmountsPct amounts).sum = 1 := by
  unfold dcaAmountsPct
  rw [sum_map_div]
  exact div_self h

/-- The update `update_max_portfolio_value` only rewrites `max_portfolio_value`. -/
theorem updateMaxPortfolioValue_eq (report : String → ℚ) (s : StrategyState) :
    updateMaxPortfolioValue report s =
      { s with max_portfolio_value := (updateMaxPortfolioValue report s).max_portfolio_value } := by
  unfold updateMaxPortfolioValue
  split <;> rfl

/-- The current-portfolio computation does not read `max_portfolio_value`,
so it is unchanged by the running-max update. -/
theorem getCurrentPortfolioValue_updateMax (report : String → ℚ) (s : StrategyState) :
    getCurrentPortfolioValue report (updateMaxPortfolioValue report s) =
      getCurrentPortfolioValue report s := by
  unfold updateMaxPortfolioValue
  split <;> rfl

/-- Count distributes over `flatMap` as the sum of the inner counts. -/
theorem count_flatMap_eq_sum {α β : Type} [DecidableEq β] (l : List α) (f : α → List β) (b : β) :
    ((l.flatMap f).count b) = (l.map (fun x => (f x).count b)).sum := by
  induction l with
  | nil => rfl
  | cons a t ih => simp [List.flatMap_cons, List.count_append, ih]

/-- An executor owned by a different controller contributes no copy of
`mkStop e` to that controller's stop list. -/
theorem stops_count_ne (execs : List ExecutorInfo) (cid : String) (e : ExecutorInfo)
    (hne : e.controller_id ≠ cid) :
    ((executorsByController execs cid).map mkStop).count (mkStop e) = 0 := by
  rw [List.count_eq_zero]
  intro hmem
  obtain ⟨x, hx, hxe⟩ := List.mem_map.1 hmem
  have h1 : x.controller_id = e.controller_id := congrArg StopExecutorAction.controller_id hxe
  have h2 : x.controller_id = cid := by simpa using (List.mem_filter.1 hx).2
  exact hne (h1 ▸ h2)

/-- With pairwise-distinct executor ids, an executor's own controller's
stop list contains `mkStop e` exactly once. -/
theorem stops_count_eq_one (execs : List ExecutorInfo)
    (hnd : (execs.map (fun e => e.id)).Nodup) (e : ExecutorInfo) (he : e ∈ execs) :
    ((executorsByController execs e.controller_id).map mkStop).count (mkStop e) = 1 := by
  have hfe : e ∈ execs.filter (fun x => x.controller_id == e.controller_id) :=
    List.mem_filter.2 ⟨he, by simp⟩
  apply List.count_eq_one_of_mem
  · have hidnd : ((execs.filter (fun x => x.controller_id == e.controller_id)).map
        (fun x => x.id)).Nodup :=
      List.Nodup.sublist ((List.filter_sublist execs).map (fun x => x.id)) hnd
    apply List.Nodup.map_on ?_ ((List.Nodup.of_map _ hnd).filter _)
    intro x hx y hy hxy
    exact List.inj_on_of_nodup_map hidnd hx hy
      (congrArg StopExecutorAction.executor_id hxy)
  · exact List.mem_map_of_mem mkStop hfe

/-- Summing a per-controller quantity that is `1` at one controller and
`0` at every controller with a different id gives `1`, when the ids are
pairwise distinct. -/
theorem sum_map_eq_one_of_unique (l : List Controller)
    (hnd : (l.map (fun c => c.id)).Nodup) (f : Controller → ℕ) (c0 : Controller)
    (hc0 : c0 ∈ l) (h1 : f c0 = 1) (h0 : ∀ c ∈ l, c.id ≠ c0.id → f c = 0) :
    (l.map f).sum = 1 := by
  induction l with
  | nil => cases hc0
  | cons a t ih =>
      rw [List.map_cons] at hnd
      rw [List.map_cons, List.sum_cons]
      rcases List.mem_cons.1 hc0 with heq | hc0t
      · subst heq
        have hz : ∀ x ∈ t.map f, x = 0 := by
          intro x hx
          obtain ⟨c, hct, rfl⟩ := List.mem_map.1 hx
          apply h0 c (List.mem_cons_of_mem _ hct)
          intro hid
          exact (List.nodup_cons.1 hnd).1 (hid ▸ List.mem_map_of_mem _ hct)
        rw [h1, List.sum_eq_zero hz]
        rfl
      · have hza : f a = 0 := by
          apply h0 a (List.mem_cons_self a t)
          intro hid
          exact (List.nodup_cons.1 hnd).1 (hid ▸ List.mem_map_of_mem _ hc0t)
        rw [hza,
          ih (List.nodup_cons.1 hnd).2 hc0t
            (fun c hct h => h0 c (List.mem_cons_of_mem _ hct) h)]

/-- When the strategy is already cashing out, `evaluate_cash_out_time` is
a no-op (its guard requires `not self.cashing_out`). -/
theorem evaluateCashOutTime_of_cashing_out (s : StrategyState) (h : s.cashing_out = true) :
    evaluateCashOutTime s = s := by
  unfold evaluateCashOutTime
  cases hc : s.cash_out_time with
  | none => rfl
  | some t => simp [h]

/-- When the cash-out deadline is unset, zero, or still in the future,
`evaluate_cash_out_time` is a no-op. -/
theorem evaluateCashOutTime_of_no_deadline (s : StrategyState)
    (hdl : match s.cash_out_time with
           | some t => t = 0 ∨ s.current_timestamp < t
           | none => True) :
    evaluateCashOutTime s = s := by
  unfold evaluateCashOutTime
  cases hc : s.cash_out_time with
  | none => rfl
  | some t =>
      rw [hc] at hdl
      rcases hdl with h0 | hlt
      · simp [h0]
      · simp [not_le.2 hlt]

/-! ## Concrete scenarios used to evaluate the code at specific inputs -/

/-- Two controllers, trading pairs quoted in USD and BTC, both RUNNING. -/
def c1_state : StrategyState :=
  { controllers := [⟨"c1", "X-USD", false, RunnableStatus.RUNNING⟩,
                    ⟨"c2", "Y-BTC", false, RunnableStatus.RUNNING⟩],
    executors := [],
    initial_portfolio_value := [("USD", 100), ("BTC", 2)],
    max_portfolio_value := [],
    cashing_out := false,
    cash_out_time := none,
    current_timestamp := 0,
    max_portfolio_loss := 30 }

/-- Performance report: controller `c1` has pnl `5`, controller `c2` pnl `1`. -/
def c1_report : String → ℚ := fun controller_id => if controller_id == "c1" then 5 else 1

/-- Drawdown scenario: one RUNNING controller quoted in USD with one live
executor; initial snapshot 1000 USD, tracked running max 1000, and a
reported pnl of `-30` — exactly `max_portfolio_loss`. -/
def c3_state : StrategyState :=
  { controllers := [⟨"c1", "X-USD", false, RunnableStatus.RUNNING⟩],
    executors := [⟨"e1", "c1", RunnableStatus.RUNNING, true, false, 0⟩],
    initial_portfolio_value := [("USD", 1000)],
    max_portfolio_value := [("asset", 1000)],
    cashing_out := false,
    cash_out_time := none,
    current_timestamp := 0,
    max_portfolio_loss := 30 }

/-- Performance report for the drawdown scenario: every controller lost 30. -/
def c3_report : String → ℚ := fun _ => -30

/-- Cashing-out drain scenario: two RUNNING executors, `e1` not yet
trading, `e2` trading. -/
def c5_state : StrategyState :=
  { controllers := [],
    executors := [⟨"e1", "c1", RunnableStatus.RUNNING, true, false, 5⟩,
                  ⟨"e2", "c2", RunnableStatus.RUNNING, true, true, 5⟩],
    initial_portfolio_value := [],
    max_portfolio_value := [],
    cashing_out := true,
    cash_out_time := none,
    current_timestamp := 0,
    max_portfolio_loss := 0 }

/-- A tick during scheduled cash-out with a kill-switched RUNNING
controller whose executor is already trading. -/
def c6_state : StrategyState :=
  { controllers := [⟨"c1", "X-USD", true, RunnableStatus.RUNNING⟩],
    executors := [⟨"e1", "c1", RunnableStatus.RUNNING, true, true, 0⟩],
    initial_portfolio_value := [],
    max_portfolio_value := [],
    cashing_out := true,
    cash_out_time := none,
    current_timestamp := 0,
    max_portfolio_loss := 0 }

/-- A tick before any cash-out: one kill-switched RUNNING controller with
a live executor, one TERMINATED controller whose kill switch is clear. -/
def c6_amended_state : StrategyState :=
  { controllers := [⟨"c1", "X-USD", true, RunnableStatus.RUNNING⟩,
                    ⟨"c2", "Y-USD", false, RunnableStatus.TERMINATED⟩],
    executors := [⟨"e1", "c1", RunnableStatus.RUNNING, true, false, 0⟩],
    initial_portfolio_value := [],
    max_portfolio_value := [],
    cashing_out := false,
    cash_out_time := none,
    current_timestamp := 0,
    max_portfolio_loss := 0 }

/-! ## Claim theorems

The `Rat` arithmetic operations are `@[irreducible]` by default; concrete
evaluations below are done by `decide`, which needs them unfolded. -/

section ClaimTheorems

attribute [local semireducible] Rat.add Rat.mul Rat.sub Rat.inv

/-- C1: the spec says `_get_current_portfolio_value` maps each quote asset
of the initial snapshot to its initial value plus the per-quote-asset pnl.
The code instead assigns every per-asset sum to the literal dict key
`'asset'` (`current_port['asset'] = value + pnl_dict[asset]`): on an
initial snapshot `{USD: 100, BTC: 2}` with pnl `{USD: 5, BTC: 1}` the
result is the single-entry dict `{'asset': 3}` — the USD entry the claim
requires (`100 + 5 = 105`) is absent and reads as `0`. -/
theorem c1_portfolio_value_uses_literal_asset_key :
    getCurrentPortfolioValue c1_report c1_state = [("asset", 3)] ∧
    dictGet (getCurrentPortfolioValue c1_report c1_state) "USD" = 0 ∧
    dictGet (getCurrentPortfolioValue c1_report c1_state) "BTC" = 0 ∧
    dictGet c1_state.initial_portfolio_value "USD" +
      dictGet (getPnlByQuoteAsset c1_report c1_state.controllers) "USD" = 105 := by
  refine ⟨by decide, by decide, by decide, by decide⟩

/-- C2 counterexample: calling `get_executor_config` with side BUY,
reference price 100, amount 300, spreads `[0.01, 0.02]` and amounts
`[0.1, 0.2]` does not produce the claimed `(price, quote amount)` pairs
`(99, 100)` and `(98, 200)`. -/
theorem c2_ladder_example_false :
    ¬ ((getExecutorConfig [1/100, 2/100] [1/10, 2/10] TradeType.BUY 100 300).prices = [99, 98] ∧
       (getExecutorConfig [1/100, 2/100] [1/10, 2/10] TradeType.BUY 100 300).amounts_quote
         = [100, 200]) := by
  decide

/-- C2 amended: with those inputs the level prices are `99 = 100 * (1 -
0.01)` and `98 = 100 * (1 - 0.02)` as claimed, but each level's
`amounts_quote` entry is the `amount` argument times the normalized weight
times the level price — `300 * (1/3) * 99 = 9900` and `300 * (2/3) * 98 =
19600` — not the plain share of the total. -/
theorem c2_ladder_example_amended :
    (getExecutorConfig [1/100, 2/100] [1/10, 2/10] TradeType.BUY 100 300).prices = [99, 98] ∧
    (getExecutorConfig [1/100, 2/100] [1/10, 2/10] TradeType.BUY 100 300).amounts_quote
      = [9900, 19600] := by
  refine ⟨by decide, by decide⟩

/-- C10: in `bollinger_dca.update_processed_data` the short assignment is
applied after the long assignment, so a band-percentage value satisfying
both `bbp < bb_long_threshold` and `bbp > bb_short_threshold` yields
signal `-1`; signal `1` is produced exactly when the long condition holds
and the short condition does not; and both conditions can hold whenever
`bb_short_threshold < bb_long_threshold`. -/
theorem c10_short_assignment_overwrites_long (longT shortT bbp : ℚ) :
    (bbp < longT ∧ bbp > shortT → bbSignal longT shortT bbp = -1) ∧
    (bbSignal longT shortT bbp = 1 ↔ bbp < longT ∧ ¬bbp > shortT) ∧
    (shortT < longT → ∃ q, q < longT ∧ q > shortT ∧ bbSignal longT shortT q = -1) := by
  refine ⟨?_, ?_, ?_⟩
  · intro h
    simp only [bbSignal]
    rw [if_pos h.2]
  · unfold bbSignal
    constructor
    · intro h
      by_cases hs : bbp > shortT
      · rw [if_pos hs] at h
        exact absurd h (by decide)
      · rw [if_neg hs] at h
        by_cases hl : bbp < longT
        · exact ⟨hl, hs⟩
        · rw [if_neg hl] at h
          exact absurd h (by decide)
    · intro ⟨hl, hs⟩
      rw [if_neg hs, if_pos hl]
  · intro h
    refine ⟨(shortT + longT) / 2, by linarith, by linarith, ?_⟩
    simp only [bbSignal]
    rw [if_pos (by linarith)]

/-- C10 witness: at thresholds `long = 1`, `short = 0` and band value
`1/2` both conditions hold and the code emits SHORT. -/
theorem c10_witness :
    ((1:ℚ)/2 < 1 ∧ (1:ℚ)/2 > 0) ∧ bbSignal 1 0 (1/2) = -1 :=
  ⟨⟨by decide, by decide⟩,
   (c10_short_assignment_overwrites_long 1 0 (1/2)).1 ⟨by decide, by decide⟩⟩

/-- C9: for intervals with known durations `d1`, `d2`, both
`get_candle_max_records` variants compute the common horizon as the max of
the per-indicator required seconds (`duration * (slow + signal)` for a
MACD series, `duration * bb_length` for a Bollinger series) and return
each series' record count as the horizon floor-divided by that series' own
interval duration. -/
theorem c9_candle_max_records (i1 i2 : String) (slow1 sig1 slow2 sig2 bb_len d1 d2 : ℕ)
    (h1 : intervalDuration i1 = some d1) (h2 : intervalDuration i2 = some d2) :
    getCandleMaxRecordsMacdMt i1 slow1 sig1 i2 slow2 sig2 =
      some [max (d1 * (slow1 + sig1)) (d2 * (slow2 + sig2)) / d1,
            max (d1 * (slow1 + sig1)) (d2 * (slow2 + sig2)) / d2] ∧
    getCandleMaxRecordsBbMacd i1 slow1 sig1 i2 bb_len =
      some [max (d1 * (slow1 + sig1)) (d2 * bb_len) / d1,
            max (d1 * (slow1 + sig1)) (d2 * bb_len) / d2] := by
  unfold getCandleMaxRecordsMacdMt getCandleMaxRecordsBbMacd
  rw [h1, h2]
  exact ⟨rfl, rfl⟩

/-- C9 witness: a 3-minute MACD(fast, 42, 9) series and a 1-hour series —
MACD(fast, 42, 9) and Bollinger length 100 respectively — get the horizon
`max(180 * 51, 3600 * 51) = 183600` resp. `max(180 * 51, 3600 * 100) =
360000` seconds and the record counts below. -/
theorem c9_witness :
    (intervalDuration "3m" = some 180 ∧ intervalDuration "1h" = some 3600) ∧
    getCandleMaxRecordsMacdMt "3m" 42 9 "1h" 42 9 = some [1020, 51] ∧
    getCandleMaxRecordsBbMacd "3m" 42 9 "1h" 100 = some [2000, 100] :=
  ⟨⟨by decide, by decide⟩,
   ((c9_candle_max_records "3m" "1h" 42 9 42 9 100 180 3600 (by decide) (by decide)).1.trans
      (by decide)),
   ((c9_candle_max_records "3m" "1h" 42 9 42 9 100 180 3600 (by decide) (by decide)).2.trans
      (by decide))⟩

/-- C7: for equal-length spread/amount lists with positive (and at least
one) amounts, the built plan has exactly `N` price levels and `N` quote
amounts, and the normalized weights `dca_amounts_pct` sum to exactly `1`
(hence within the decimal tolerance `1e-9`). -/
theorem c7_level_count_and_weight_sum (dca_spreads dca_amounts : List ℚ)
    (trade_type : TradeType) (price amount : ℚ)
    (hlen : dca_amounts.length = dca_spreads.length)
    (hne : dca_amounts ≠ [])
    (hpos : ∀ a ∈ dca_amounts, 0 < a) :
    (getExecutorConfig dca_spreads dca_amounts trade_type price amount).prices.length
      = dca_spreads.length ∧
    (getExecutorConfig dca_spreads dca_amounts trade_type price amount).amounts_quote.length
      = dca_spreads.length ∧
    (dcaAmountsPct dca_amounts).sum = 1 ∧
    |(dcaAmountsPct dca_amounts).sum - 1| ≤ 1 / 1000000000 := by
  have hsum : (dcaAmountsPct dca_amounts).sum = 1 :=
    dcaAmountsPct_sum dca_amounts (ne_of_gt (List.sum_pos dca_amounts hpos hne))
  have hp : (getExecutorConfig dca_spreads dca_amounts trade_type price amount).prices.length
      = dca_spreads.length := by
    cases trade_type <;> simp [getExecutorConfig]
  refine ⟨hp, ?_, hsum, by rw [hsum]; norm_num⟩
  have ha : ((dcaAmountsPct dca_amounts).map (fun pct => amount * pct)).length
      = dca_spreads.length := by
    simp [dcaAmountsPct, hlen]
  cases trade_type <;>
    simp [getExecutorConfig, dcaAmountsPct, hlen]

/-- C7 witness: the default-style configuration with spreads
`[0.01, 0.02]` and amounts `[0.1, 0.2]` yields two levels and weights
summing to exactly `1`. -/
theorem c7_witness :
    ([(1:ℚ)/10, 2/10].length = [(1:ℚ)/100, 2/100].length ∧
     [(1:ℚ)/10, 2/10] ≠ [] ∧ ∀ a ∈ [(1:ℚ)/10, 2/10], 0 < a) ∧
    (getExecutorConfig [1/100, 2/100] [1/10, 2/10] TradeType.BUY 100 300).prices.length = 2 ∧
    (getExecutorConfig [1/100, 2/100] [1/10, 2/10] TradeType.BUY 100 300).amounts_quote.length
      = 2 ∧
    (dcaAmountsPct [1/10, 2/10]).sum = 1 ∧
    |(dcaAmountsPct [(1:ℚ)/10, 2/10]).sum - 1| ≤ 1 / 1000000000 :=
  ⟨⟨by decide, by decide, by decide⟩,
   c7_level_count_and_weight_sum [1/100, 2/100] [1/10, 2/10] TradeType.BUY 100 300
     (by decide) (by decide) (by decide)⟩

/-- C4: every row of the backward asof join carries its primary timestamp
and signal and the latest secondary signal at or before that timestamp (or
none); the fused output contains, for that row, the primary signal exactly
when the attached secondary signal equals it and FLAT (`0`) otherwise — in
particular LONG (`1`) when both are LONG, and `0` whenever they disagree;
and an attached value always comes from a secondary row no later than the
primary timestamp. -/
theorem c4_fused_signal (primary secondary : List (ℤ × ℤ)) (t s1 : ℤ) (att : Option ℤ)
    (hmem : (t, s1, att) ∈ asofBackward primary secondary) :
    ((t, fuseRow s1 att) ∈ mergedSignal primary secondary) ∧
    (att = some s1 → fuseRow s1 att = s1) ∧
    (att ≠ some s1 → fuseRow s1 att = 0) ∧
    (s1 = 1 → att = some 1 → fuseRow s1 att = 1) ∧
    (∀ v, att = some v → ∃ ts, (ts, v) ∈ secondary ∧ ts ≤ t) := by
  refine ⟨?_, ?_, ?_, ?_, ?_⟩
  · exact List.mem_map_of_mem (fun r => (r.1, fuseRow r.2.1 r.2.2)) hmem
  · intro h
    subst h
    simp [fuseRow]
  · intro h
    match att with
    | none => rfl
    | some s2 =>
        have hne : s1 ≠ s2 := fun he => h (by rw [he])
        simp [fuseRow, hne]
  · intro h1 h2
    subst h1 h2
    simp [fuseRow]
  · intro v hv
    unfold asofBackward at hmem
    obtain ⟨p, _, hp⟩ := List.mem_map.1 hmem
    have hatt : ((secondary.filter (fun q => q.1 ≤ p.1)).getLast?).map Prod.snd = att := by
      have := congrArg (fun r => r.2.2) hp
      simpa using this
    have ht : p.1 = t := by
      have := congrArg (fun r => r.1) hp
      simpa using this
    rw [hv] at hatt
    match hlast : (secondary.filter (fun q => decide (q.1 ≤ p.1))).getLast? with
    | none => rw [hlast] at hatt; exact absurd hatt (by simp)
    | some q =>
        rw [hlast] at hatt
        have hq : q ∈ secondary.filter (fun q => decide (q.1 ≤ p.1)) :=
          List.mem_of_getLast?_eq_some hlast
        have hq2 := List.mem_filter.1 hq
        refine ⟨q.1, ?_, ?_⟩
        · have hqv : q.2 = v := by simpa using hatt
          rw [← hqv]
          exact hq2.1
        · rw [← ht]
          simpa using hq2.2

/-- C4 witness: primary rows `(1, LONG), (2, LONG)` joined with the single
secondary row `(0, LONG)` fuse to LONG at timestamp 2. -/
theorem c4_witness :
    ((2, 1, some 1) ∈ asofBackward [(1, 1), (2, 1)] [(0, 1)]) ∧
    ((2, 1) ∈ mergedSignal [(1, 1), (2, 1)] [(0, 1)]) :=
  ⟨by decide,
   (c4_fused_signal [(1, 1), (2, 1)] [(0, 1)] 2 1 (some 1) (by decide)).1⟩

/-- C8 counterexample: an executor that is active, not trading and whose
age (`2`) exceeds `executor_refresh_time` (`1`) is nevertheless not
scheduled for a stop, because the code compares the age against
`executor_refresh_time * 1000`. -/
theorem c8_refresh_threshold_false :
    executorsToRefresh "c1" 2 1
      [⟨"e1", "c1", RunnableStatus.RUNNING, true, false, 0⟩] = [] ∧
    ((2:ℚ) - (⟨"e1", "c1", RunnableStatus.RUNNING, true, false, 0⟩ : ExecutorInfo).timestamp
       > 1) := by
  refine ⟨by decide, by decide⟩

/-- C8 amended: `executors_to_refresh` returns a `StopExecutorAction`
exactly for those executors that are active, not trading, and whose age
exceeds `executor_refresh_time * 1000`, and for no other executor (the
function is a pure filter producing this list). -/
theorem c8_refresh_filter (config_id : String) (now executor_refresh_time : ℚ)
    (executors_info : List ExecutorInfo)
    (hnd : (executors_info.map (fun e => e.id)).Nodup)
    (e : ExecutorInfo) (he : e ∈ executors_info) :
    (({ executor_id := e.id, controller_id := config_id } : StopExecutorAction)
        ∈ executorsToRefresh config_id now executor_refresh_time executors_info) ↔
      (e.is_active = true ∧ e.is_trading = false ∧
        now - e.timestamp > executor_refresh_time * 1000) := by
  unfold executorsToRefresh orderLevelRefreshCondition
  constructor
  · intro h
    obtain ⟨x, hx, hxe⟩ := List.mem_map.1 h
    have hxid : x.id = e.id := congrArg StopExecutorAction.executor_id hxe
    have hfil := List.mem_filter.1 hx
    have hxeq : x = e := List.inj_on_of_nodup_map hnd hfil.1 he hxid
    subst hxeq
    have hb := hfil.2
    simp only [Bool.and_eq_true, Bool.not_eq_true', decide_eq_true_eq] at hb
    exact ⟨hb.1.2, hb.1.1, hb.2⟩
  · intro ⟨h1, h2, h3⟩
    apply List.mem_map_of_mem
    apply List.mem_filter.2
    refine ⟨he, ?_⟩
    simp only [Bool.and_eq_true, Bool.not_eq_true', decide_eq_true_eq]
    exact ⟨⟨h2, h1⟩, h3⟩

/-- C8 amended witness: with `executor_refresh_time = 1` an active,
non-trading executor of age `2000 > 1000` is scheduled for a stop. -/
theorem c8_witness :
    ({ executor_id := "e1", controller_id := "c1" } : StopExecutorAction)
      ∈ executorsToRefresh "c1" 2000 1
          [⟨"e1", "c1", RunnableStatus.RUNNING, true, false, 0⟩] :=
  (c8_refresh_filter "c1" 2000 1 [⟨"e1", "c1", RunnableStatus.RUNNING, true, false, 0⟩]
      (by decide) ⟨"e1", "c1", RunnableStatus.RUNNING, true, false, 0⟩ (by decide)).mpr
    ⟨by decide, by decide, by decide⟩

/-- C5: while CASHING_OUT, a tick's cash-out control requests full
shutdown when no executor is RUNNING (issuing no stops), and otherwise
issues a stop exactly for every RUNNING executor that is not trading —
trading executors receive none. -/
theorem c5_cash_out_drain (s : StrategyState)
    (hco : s.cashing_out = true)
    (hnd : (s.executors.map (fun e => e.id)).Nodup) :
    ((s.executors.filter (fun e => e.status == RunnableStatus.RUNNING)) = [] →
       (controlCashOut s).2.2 = true ∧ (controlCashOut s).2.1 = []) ∧
    ((s.executors.filter (fun e => e.status == RunnableStatus.RUNNING)) ≠ [] →
       (controlCashOut s).2.2 = false ∧
       ∀ e ∈ s.executors,
         (mkStop e ∈ (controlCashOut s).2.1 ↔
           (e.status = RunnableStatus.RUNNING ∧ e.is_trading = false))) := by
  have hev : evaluateCashOutTime s = s := evaluateCashOutTime_of_cashing_out s hco
  have hcc : controlCashOut s = (s, (checkExecutorsStatus s).1, (checkExecutorsStatus s).2) := by
    simp only [controlCashOut, hev, hco, if_true]
  rw [hcc]
  constructor
  · intro hfil
    have hces : checkExecutorsStatus s = ([], true) := by
      simp only [checkExecutorsStatus, hfil, List.isEmpty_nil, if_true]
    rw [hces]
    exact ⟨rfl, rfl⟩
  · intro hfil
    have hie : (s.executors.filter (fun e => e.status == RunnableStatus.RUNNING)).isEmpty
        = false := by
      cases hi : (s.executors.filter (fun e => e.status == RunnableStatus.RUNNING)).isEmpty
      · rfl
      · exact absurd (List.isEmpty_iff.1 hi) hfil
    have hces : checkExecutorsStatus s =
        (((s.executors.filter (fun e => e.status == RunnableStatus.RUNNING)).filter
            (fun e => !e.is_trading)).map mkStop, false) := by
      simp only [checkExecutorsStatus, hie, Bool.false_eq_true, if_false]
    rw [hces]
    refine ⟨rfl, ?_⟩
    intro e he
    constructor
    · intro hmem
      obtain ⟨x, hx, hxe⟩ := List.mem_map.1 hmem
      have hx2 := List.mem_filter.1 hx
      have hx3 := List.mem_filter.1 hx2.1
      have hxid : x.id = e.id := congrArg StopExecutorAction.executor_id hxe
      have hxeq : x = e := List.inj_on_of_nodup_map hnd hx3.1 he hxid
      subst hxeq
      refine ⟨by simpa using hx3.2, by simpa using hx2.2⟩
    · intro ⟨h1, h2⟩
      apply List.mem_map_of_mem
      apply List.mem_filter.2
      refine ⟨List.mem_filter.2 ⟨he, by simp [h1]⟩, by simp [h2]⟩

/-- C5 witness: in `c5_state` the non-trading RUNNING executor `e1` gets a
stop and no shutdown is requested. -/
theorem c5_witness :
    (mkStop ⟨"e1", "c1", RunnableStatus.RUNNING, true, false, 5⟩
       ∈ (controlCashOut c5_state).2.1) ∧
    (controlCashOut c5_state).2.2 = false :=
  ⟨(((c5_cash_out_drain c5_state rfl (by decide)).2 (by decide)).2
      ⟨"e1", "c1", RunnableStatus.RUNNING, true, false, 5⟩ (by decide)).mpr ⟨rfl, rfl⟩,
   ((c5_cash_out_drain c5_state rfl (by decide)).2 (by decide)).1⟩

/-- C6 counterexample: on a tick during scheduled cash-out
(`cashing_out = true`) a controller whose manual kill switch is set while
RUNNING is left untouched — it stays RUNNING and no stop action at all is
issued — contradicting the claim that the manual path acts independently
of whether scheduled cash-out has begun. -/
theorem c6_manual_cash_out_false :
    (∃ c ∈ c6_state.controllers,
        c.manual_kill_switch = true ∧ c.status = RunnableStatus.RUNNING) ∧
    (onTick (fun _ => 0) c6_state).1.controllers = c6_state.controllers ∧
    (onTick (fun _ => 0) c6_state).2.1 = [] := by
  refine ⟨by decide, by decide, by decide⟩

/-- C6 amended: on every tick in which scheduled cash-out has not begun
(not CASHING_OUT, and the deadline is unset, zero or in the future), any
controller whose kill switch is set while RUNNING is stopped and stop
requests are issued for all of its executors, and any controller whose
kill switch is clear while TERMINATED is restarted; once the state is
CASHING_OUT the manual kill-switch flags are not processed. -/
theorem c6_manual_cash_out_amended (s : StrategyState)
    (hco : s.cashing_out = false)
    (hdl : match s.cash_out_time with
           | some t => t = 0 ∨ s.current_timestamp < t
           | none => True) :
    (controlCashOut s).2.2 = false ∧
    (∀ c ∈ s.controllers,
      (c.manual_kill_switch = true → c.status = RunnableStatus.RUNNING →
        (({ c with status := RunnableStatus.TERMINATED } : Controller)
            ∈ (controlCashOut s).1.controllers ∧
         ∀ e ∈ s.executors, e.controller_id = c.id →
           mkStop e ∈ (controlCashOut s).2.1)) ∧
      (c.manual_kill_switch = false → c.status = RunnableStatus.TERMINATED →
        ({ c with status := RunnableStatus.RUNNING } : Controller)
            ∈ (controlCashOut s).1.controllers)) := by
  have hev : evaluateCashOutTime s = s := evaluateCashOutTime_of_no_deadline s hdl
  have hcc : controlCashOut s =
      ({ s with controllers := (checkManualCashOut s).1 }, (checkManualCashOut s).2, false) := by
    simp only [controlCashOut, hev, hco, Bool.false_eq_true, if_false]
  rw [hcc]
  refine ⟨rfl, ?_⟩
  intro c hc
  constructor
  · intro hks hst
    have hstep : manualCashOutStep s.executors c =
        ({ c with status := RunnableStatus.TERMINATED },
         (executorsByController s.executors c.id).map mkStop) := by
      unfold manualCashOutStep
      simp [hks, hst]
    constructor
    · show _ ∈ (checkManualCashOut s).1
      unfold checkManualCashOut
      have hm : (manualCashOutStep s.executors c).1
          ∈ s.controllers.map (fun c => (manualCashOutStep s.executors c).1) :=
        List.mem_map_of_mem (fun c => (manualCashOutStep s.executors c).1) hc
      rw [hstep] at hm
      exact hm
    · intro e he hecid
      show _ ∈ (checkManualCashOut s).2
      unfold checkManualCashOut
      apply List.mem_flatMap.2
      refine ⟨c, hc, ?_⟩
      rw [hstep]
      apply List.mem_map_of_mem
      unfold executorsByController
      exact List.mem_filter.2 ⟨he, by simp [hecid]⟩
  · intro hks hst
    have hstep : manualCashOutStep s.executors c =
        ({ c with status := RunnableStatus.RUNNING }, []) := by
      unfold manualCashOutStep
      simp [hks, hst]
    show _ ∈ (checkManualCashOut s).1
    unfold checkManualCashOut
    have hm : (manualCashOutStep s.executors c).1
        ∈ s.controllers.map (fun c => (manualCashOutStep s.executors c).1) :=
      List.mem_map_of_mem (fun c => (manualCashOutStep s.executors c).1) hc
    rw [hstep] at hm
    exact hm

/-- C6 amended witness: in `c6_amended_state` the kill-switched RUNNING
controller `c1` ends TERMINATED with a stop for its executor `e1`, and the
TERMINATED controller `c2` with a clear kill switch is restarted. -/
theorem c6_witness :
    (({ id := "c1", trading_pair := "X-USD", manual_kill_switch := true,
        status := RunnableStatus.TERMINATED } : Controller)
       ∈ (controlCashOut c6_amended_state).1.controllers) ∧
    (mkStop ⟨"e1", "c1", RunnableStatus.RUNNING, true, false, 0⟩
       ∈ (controlCashOut c6_amended_state).2.1) ∧
    (({ id := "c2", trading_pair := "Y-USD", manual_kill_switch := false,
        status := RunnableStatus.RUNNING } : Controller)
       ∈ (controlCashOut c6_amended_state).1.controllers) :=
  ⟨(((c6_manual_cash_out_amended c6_amended_state rfl trivial).2
       ⟨"c1", "X-USD", true, RunnableStatus.RUNNING⟩ (by decide)).1 rfl rfl).1,
   (((c6_manual_cash_out_amended c6_amended_state rfl trivial).2
       ⟨"c1", "X-USD", true, RunnableStatus.RUNNING⟩ (by decide)).1 rfl rfl).2
     ⟨"e1", "c1", RunnableStatus.RUNNING, true, false, 0⟩ (by decide) rfl,
   ((c6_manual_cash_out_amended c6_amended_state rfl trivial).2
       ⟨"c2", "Y-USD", false, RunnableStatus.TERMINATED⟩ (by decide)).2 rfl rfl⟩

/-- C3: on a portfolio-loss control step, if some asset of the computed
current portfolio has drawn down from the tracked running max by at least
`max_portfolio_loss`, then every RUNNING controller is stopped (no
controller is left RUNNING) and exactly one stop request is issued for
each live executor of each previously RUNNING controller. -/
theorem c3_drawdown_global_stop (report : String → ℚ) (s : StrategyState)
    (hndc : (s.controllers.map (fun c => c.id)).Nodup)
    (hnde : (s.executors.map (fun e => e.id)).Nodup)
    (hbr : ∃ p ∈ getCurrentPortfolioValue report s,
        s.max_portfolio_loss ≤
          dictGet (updateMaxPortfolioValue report s).max_portfolio_value p.1 - p.2) :
    (∀ c ∈ (controlPortfolioLoss report s).1.controllers,
        c.status ≠ RunnableStatus.RUNNING) ∧
    (∀ c ∈ s.controllers, c.status = RunnableStatus.RUNNING →
        ((({ c with status := RunnableStatus.TERMINATED } : Controller)
            ∈ (controlPortfolioLoss report s).1.controllers) ∧
         ∀ e ∈ s.executors, e.controller_id = c.id →
           (controlPortfolioLoss report s).2.count (mkStop e) = 1)) := by
  have hs1c : (updateMaxPortfolioValue report s).controllers = s.controllers := by
    rw [updateMaxPortfolioValue_eq]
  have hs1e : (updateMaxPortfolioValue report s).executors = s.executors := by
    rw [updateMaxPortfolioValue_eq]
  have hs1l : (updateMaxPortfolioValue report s).max_portfolio_loss
      = s.max_portfolio_loss := by
    rw [updateMaxPortfolioValue_eq]
  have hany : (getCurrentPortfolioValue report (updateMaxPortfolioValue report s)).any
      (fun p => decide ((updateMaxPortfolioValue report s).max_portfolio_loss ≤
        dictGet (updateMaxPortfolioValue report s).max_portfolio_value p.1 - p.2)) = true := by
    rw [getCurrentPortfolioValue_updateMax]
    apply List.any_eq_true.2
    obtain ⟨p, hp, hineq⟩ := hbr
    refine ⟨p, hp, ?_⟩
    rw [hs1l]
    exact decide_eq_true hineq
  have hcpl : controlPortfolioLoss report s
      = stopByPortfolioLoss (updateMaxPortfolioValue report s) := by
    simp only [controlPortfolioLoss]
    rw [hany]
    simp
  have hstop1 : (stopByPortfolioLoss (updateMaxPortfolioValue report s)).1.controllers =
      s.controllers.map (fun c => if c.status == RunnableStatus.RUNNING
        then { c with status := RunnableStatus.TERMINATED } else c) := by
    simp [stopByPortfolioLoss, hs1c]
  have hstop2 : (stopByPortfolioLoss (updateMaxPortfolioValue report s)).2 =
      (s.controllers.filter (fun c => c.status == RunnableStatus.RUNNING)).flatMap
        (fun c => (executorsByController s.executors c.id).map mkStop) := by
    simp [stopByPortfolioLoss, hs1c, hs1e]
  rw [hcpl, hstop1, hstop2]
  constructor
  · intro c hcm
    obtain ⟨c0, hc0, heq⟩ := List.mem_map.1 hcm
    subst heq
    cases hb : c0.status == RunnableStatus.RUNNING
    · simp only [hb, Bool.false_eq_true, if_false]
      intro h
      rw [h] at hb
      simp at hb
    · simp only [hb, if_true]
      intro h
      exact absurd h (by simp)
  · intro c hc hst
    have hb : (c.status == RunnableStatus.RUNNING) = true := by rw [hst]; rfl
    constructor
    · have hm : (if c.status == RunnableStatus.RUNNING
          then { c with status := RunnableStatus.TERMINATED } else c)
            ∈ s.controllers.map (fun c => if c.status == RunnableStatus.RUNNING
                then { c with status := RunnableStatus.TERMINATED } else c) :=
        List.mem_map_of_mem _ hc
      rw [hb] at hm
      simpa using hm
    · intro e he hecid
      show ((s.controllers.filter (fun c => c.status == RunnableStatus.RUNNING)).flatMap
          (fun c => (executorsByController s.executors c.id).map mkStop)).count (mkStop e) = 1
      rw [count_flatMap_eq_sum]
      apply sum_map_eq_one_of_unique _ ?_ _ c ?_ ?_ ?_
      · exact List.Nodup.sublist
          ((List.filter_sublist s.controllers).map (fun c => c.id)) hndc
      · exact List.mem_filter.2 ⟨hc, hb⟩
      · rw [← hecid]
        exact stops_count_eq_one s.executors hnde e he
      · intro c' _ hne
        apply stops_count_ne
        intro heq
        rw [heq] at hecid
        exact hne hecid

/-- C3 witness: in `c3_state` (running max 1000, current 970, loss limit
30) the RUNNING controller `c1` ends TERMINATED and its executor `e1`
receives exactly one stop request. -/
theorem c3_witness :
    (({ id := "c1", trading_pair := "X-USD", manual_kill_switch := false,
        status := RunnableStatus.TERMINATED } : Controller)
       ∈ (controlPortfolioLoss c3_report c3_state).1.controllers) ∧
    (controlPortfolioLoss c3_report c3_state).2.count
        (mkStop ⟨"e1", "c1", RunnableStatus.RUNNING, true, false, 0⟩) = 1 :=
  ⟨((c3_drawdown_global_stop c3_report c3_state (by decide) (by decide) (by decide)).2
      ⟨"c1", "X-USD", false, RunnableStatus.RUNNING⟩ (by decide) rfl).1,
   ((c3_drawdown_global_stop c3_report c3_state (by decide) (by decide) (by decide)).2
      ⟨"c1", "X-USD", false, RunnableStatus.RUNNING⟩ (by decide) rfl).2
     ⟨"e1", "c1", RunnableStatus.RUNNING, true, false, 0⟩ (by decide) rfl⟩

end ClaimTheorems

end Deploy
